import Mathlib

/-!
Shallow embedding of the LexiMind vocabulary-learning front-end
(React view controller in `App.tsx`, service layer in `services/gemini.ts`,
shared types in `types.ts`).

The React component state is modelled as an explicit record `AppState`;
each event handler becomes a pure state-transition function.  Results of
the external generative-AI calls (which the handlers `await`) are passed
in as explicit oracle arguments, so a handler is a function of the state
plus the outcome of the requests it issued.  JavaScript strings are
modelled as Lean `String`, except in the story renderer where the
character-level regex split is modelled over `List Char`.
-/

/-- `WordDefinition` from `types.ts`. -/
structure WordDefinition where
  word : String
  phonetic : String
  partOfSpeech : String
  definition : String
  originalDefinition : String
  examples : List String
  synonyms : List String
  etymology : String
  vibes : List String
deriving DecidableEq

/-- `AdditionalMeaning` from `types.ts`. -/
structure AdditionalMeaning where
  context : String
  definition : String
deriving DecidableEq

/-- The chat message role union type `'user' | 'model'` from `types.ts`. -/
inductive ChatRole where
  | user
  | model
deriving DecidableEq

/-- `ChatMessage` from `types.ts`. -/
structure ChatMessage where
  id : String
  role : ChatRole
  text : String
deriving DecidableEq

/-- `SavedItem` from `types.ts` (`timestamp` is a `Date.now()` value). -/
structure SavedItem where
  id : String
  word : String
  imageUrl : String
  definition : String
  timestamp : Nat
deriving DecidableEq

/-- `StoryQuiz` from `types.ts`. -/
structure StoryQuiz where
  title : String
  content : String
  wordsUsed : List String
deriving DecidableEq

/-- The feedback union type `'like' | 'dislike'` used by `imageFeedbacks`. -/
inductive Feedback where
  | like
  | dislike
deriving DecidableEq

/-- The `View` union type `'search' | 'wordbook'` from `App.tsx`. -/
inductive View where
  | search
  | wordbook
deriving DecidableEq

/-- The `useState` slots of the `App` component in `App.tsx`.  The
`imageFeedbacks` record (`Record<string, 'like' | 'dislike'>`) is modelled
as a partial map from image reference to feedback value. -/
structure AppState where
  view : View
  query : String
  wordData : Option WordDefinition
  gallery : List String
  activeImageIndex : Nat
  additionalMeanings : Option (List AdditionalMeaning)
  imageFeedbacks : String → Option Feedback
  savedItems : List SavedItem
  storyQuiz : Option StoryQuiz
  chatMessages : List ChatMessage
  chatInput : String
  isChatOpen : Bool
  loadingWord : Bool
  loadingImage : Bool
  loadingNewImage : Bool
  isChatSending : Bool

/-- `String.prototype.trim` as used in the handler guards: strips
leading and trailing whitespace. -/
def jsTrim (s : String) : String :=
  String.mk (((s.data.dropWhile Char.isWhitespace).reverse.dropWhile
    Char.isWhitespace).reverse)

/-- The synchronous reset block at the top of `handleSearch`
(`App.tsx` lines 105-116): `setView('search')`, both loading flags set,
and every Word Session State slot cleared, before any request is issued. -/
def searchReset (s : AppState) : AppState :=
  { s with
    view := View.search
    loadingWord := true
    loadingImage := true
    wordData := none
    gallery := []
    activeImageIndex := 0
    additionalMeanings := none
    imageFeedbacks := fun _ => none
    chatMessages := []
    isChatOpen := false }

/-- The `try`/`catch`/`finally` tail of `handleSearch` (`App.tsx` lines
118-136).  `details` is the outcome of `getWordDetails` (`Except.error`
models a rejected promise); `img` is the result of `generateWordImage`,
which never throws and signals failure by returning the empty string.
If the details promise rejects, control jumps to `catch` and the image
result is never read; otherwise the definition is committed, and then the
image is committed only when non-empty. -/
def commitSearchResults (s : AppState) (details : Except Unit WordDefinition)
    (img : String) : AppState :=
  match details with
  | Except.error _ => { s with loadingWord := false, loadingImage := false }
  | Except.ok d =>
      let s1 := { s with wordData := some d, loadingWord := false }
      let s2 := if img = "" then s1 else { s1 with gallery := [img] }
      { s2 with loadingWord := false, loadingImage := false }

/-- `handleSearch` from `App.tsx` (lines 102-137): guard on a blank
query, then the synchronous reset followed by committing the two request
outcomes. -/
def handleSearch (s : AppState) (details : Except Unit WordDefinition)
    (img : String) : AppState :=
  if jsTrim s.query = "" then s
  else commitSearchResults (searchReset s) details img

/-- The duplicate test inside `handleSaveItem` (`App.tsx` line 210):
`prev.some(item => item.word === newItem.word && item.imageUrl === newItem.imageUrl)`. -/
def savedPairDup (prev : List SavedItem) (it : SavedItem) : Bool :=
  prev.any fun item => item.word == it.word && item.imageUrl == it.imageUrl

/-- The `setSavedItems` updater of `handleSaveItem` (`App.tsx` lines
208-214): no-op when an item with the same (word, imageUrl) pair exists,
otherwise the new item is prepended. -/
def handleSaveItem (prev : List SavedItem) (it : SavedItem) : List SavedItem :=
  if savedPairDup prev it then prev else it :: prev

/-- The Collection Store uniqueness invariant: no two saved items share
the same (word, image reference) pair. -/
def PairUnique (l : List SavedItem) : Prop :=
  List.Pairwise (fun a b => ¬(a.word = b.word ∧ a.imageUrl = b.imageUrl)) l

/-- `handleGenerateNewImage` from `App.tsx` (lines 164-180).  `newImg` is
the result of `generateWordImage` (never throws; empty string on
failure).  On success the image is appended (`setGallery(prev => [...prev,
newImg])`) and the active index is incremented (`setActiveImageIndex(prev
=> prev + 1)`); on failure neither is touched.  The `loadingNewImage`
flag is set for the duration and cleared in `finally`. -/
def handleGenerateNewImage (s : AppState) (newImg : String) : AppState :=
  match s.wordData with
  | none => s
  | some _ =>
      let s1 := { s with loadingNewImage := true }
      let s2 :=
        if newImg = "" then s1
        else { s1 with
               gallery := s1.gallery ++ [newImg]
               activeImageIndex := s1.activeImageIndex + 1 }
      { s2 with loadingNewImage := false }

/-- `toggleFeedback` from `App.tsx` (lines 182-195): keyed by
`gallery[activeImageIndex]` (a guard returns early when that is absent or
empty); re-applying the recorded value deletes the entry, any other
application overwrites it. -/
def toggleFeedback (s : AppState) (ty : Feedback) : AppState :=
  let currentUrl := s.gallery.getD s.activeImageIndex ""
  if currentUrl = "" then s
  else
    { s with imageFeedbacks := fun u =>
        if u = currentUrl then
          if s.imageFeedbacks currentUrl = some ty then none else some ty
        else s.imageFeedbacks u }

/-- Outcome of the `chatAboutWord` call awaited by `handleChatSubmit`:
either the promise rejects (`threw`) or it resolves with `response.text`,
which may be absent (`none`) or any string including the empty one. -/
inductive ChatOutcome where
  | threw
  | ok (text : Option String)

/-- The fallback assistant text from `App.tsx` line 259. -/
def fallbackChatText : String := "I couldn\x27t answer that at the moment."

/-- `handleChatSubmit` from `App.tsx` (lines 238-267): guard on blank
input or missing word; append the user message and lock sending; on a
resolved call append a bot message whose text falls back when the
response text is absent or empty (`responseText || fallback`); on a
rejected call the `catch` block only logs, so no bot message is
appended; `finally` clears the sending lock. -/
def handleChatSubmit (s : AppState) (userId botId : String)
    (outcome : ChatOutcome) : AppState :=
  if jsTrim s.chatInput = "" then s
  else
    match s.wordData with
    | none => s
    | some _ =>
        let userMsg : ChatMessage :=
          { id := userId, role := ChatRole.user, text := s.chatInput }
        let s1 := { s with
          chatMessages := s.chatMessages ++ [userMsg]
          chatInput := ""
          isChatSending := true }
        match outcome with
        | ChatOutcome.threw => { s1 with isChatSending := false }
        | ChatOutcome.ok t =>
            let txt :=
              match t with
              | none => fallbackChatText
              | some u => if u = "" then fallbackChatText else u
            let botMsg : ChatMessage :=
              { id := botId, role := ChatRole.model, text := txt }
            { s1 with
              chatMessages := s1.chatMessages ++ [botMsg]
              isChatSending := false }

/-- The word-selection step of `generateStoryFromWords`
(`services/gemini.ts` line 151):
`words.length > 8 ? words.sort(...).slice(0, 8) : words`.
`Array.prototype.sort` sorts the caller's array in place; with the random
comparator the sorted contents are an arbitrary permutation of the input,
passed here as the explicit `shuffled` argument.  The result pair is
(subset of words embedded in the issued request, contents of the caller's
array after the call). -/
def generateStoryFromWords (words shuffled : List String) :
    List String × List String :=
  if 8 < words.length then (shuffled.take 8, shuffled) else (words, words)

/-- A segment produced by `renderStoryContent` in `App.tsx` (lines
275-290): either a revealable `QuizBlank` holding the word behind the
blank, or literal text rendered verbatim in a span. -/
inductive StorySegment where
  | blank (w : List Char)
  | lit (t : List Char)
deriving DecidableEq

/-- Line terminators not matched by `.` in the JavaScript regex
`/(\x7b\x7b.*?\x7d\x7d)/g` used by `renderStoryContent`. -/
def isLineTerm (c : Char) : Bool :=
  c = '\n' || c = '\r' || c = Char.ofNat 0x2028 || c = Char.ofNat 0x2029

/-- Character-level model of
`content.split(/(\x7b\x7b.*?\x7d\x7d)/g)` from `renderStoryContent`.
The first accumulator is the pending literal part (reversed); a `some`
second accumulator means the scanner is inside a candidate marker that
opened with two braces, holding the inner characters seen so far
(reversed).  As in the regex, the marker closes at the nearest following
two closing braces (non-greedy `.*?`), and a line terminator or the end
of input aborts the candidate, turning it back into literal text.  As in
`String.prototype.split` with a capturing group, the delimiter parts are
kept, and empty literal parts appear between adjacent markers and at the
ends. -/
def storyScanAux : List Char → Option (List Char) → List Char → List (List Char)
  | litAcc, none, [] => [litAcc.reverse]
  | litAcc, some inner, [] =>
      [litAcc.reverse ++ '{' :: '{' :: inner.reverse]
  | litAcc, none, '{' :: '{' :: rest => storyScanAux litAcc (some []) rest
  | litAcc, none, c :: rest => storyScanAux (c :: litAcc) none rest
  | litAcc, some inner, '}' :: '}' :: rest =>
      litAcc.reverse :: ('{' :: '{' :: (inner.reverse ++ ['}', '}'])) ::
        storyScanAux [] none rest
  | litAcc, some inner, c :: rest =>
      if isLineTerm c then
        storyScanAux (c :: (inner ++ ['{', '{'] ++ litAcc)) none rest
      else
        storyScanAux litAcc (some (c :: inner)) rest

/-- The split parts of a story body, as in
`const parts = content.split(/(\x7b\x7b.*?\x7d\x7d)/g)`. -/
def storySplit (content : List Char) : List (List Char) :=
  storyScanAux [] none content

/-- The source characters still owed by the scanner mode: nothing in
literal mode, the opening braces plus the inner characters seen so far in
marker mode. -/
def modeChars : Option (List Char) → List Char
  | none => []
  | some inner => '{' :: '{' :: inner.reverse

/-- `part.startsWith('\x7b\x7b')` on the character list. -/
def startsWithOpen (l : List Char) : Bool :=
  match l with
  | a :: b :: _ => a = '{' && b = '{'
  | _ => false

/-- `part.endsWith('\x7d\x7d')` on the character list. -/
def endsWithClose (l : List Char) : Bool :=
  match l.reverse with
  | a :: b :: _ => a = '}' && b = '}'
  | _ => false

/-- The per-part classification inside `renderStoryContent`: a part that
starts with two opening braces and ends with two closing braces becomes a
`QuizBlank` whose word is `part.slice(2, -2)`; every other part is a
verbatim span. -/
def classifyPart (p : List Char) : StorySegment :=
  if startsWithOpen p && endsWithClose p then
    StorySegment.blank ((p.drop 2).take (p.length - 4))
  else StorySegment.lit p

/-- `renderStoryContent` from `App.tsx` (lines 275-290), as the list of
segments rendered in order. -/
def renderStoryContent (content : List Char) : List StorySegment :=
  (storySplit content).map classifyPart

/-- The source text a rendered segment stands for: a blank stands for its
marker (the braces plus the word behind the blank), a literal span for its
text. -/
def segText : StorySegment → List Char
  | StorySegment.blank w => '{' :: '{' :: (w ++ ['}', '}'])
  | StorySegment.lit t => t

/-- The example story body from the spec,
`"The \x7b\x7bcat\x7d\x7d sat on the \x7b\x7bmat\x7d\x7d."`. -/
def exampleStoryBody : List Char :=
  "The \x7b\x7bcat\x7d\x7d sat on the \x7b\x7bmat\x7d\x7d.".data

/-- Reading one little-endian 16-bit signed sample out of two bytes, as
`new Int16Array(bytes.buffer)` does in `decodeAudioData`
(`services/gemini.ts` line 253). -/
def byteToInt16 (b0 b1 : Nat) : Int :=
  let v := b0 + 256 * b1
  if v < 32768 then (v : Int) else (v : Int) - 65536

/-- The `Int16Array` view of the decoded byte payload: consecutive byte
pairs become signed 16-bit samples. -/
def toInt16Samples : List Nat → List Int
  | b0 :: b1 :: rest => byteToInt16 b0 b1 :: toInt16Samples rest
  | _ => []

/-- `decodeAudioData` from `services/gemini.ts` (lines 249-267), mono
channel: every 16-bit sample `s` becomes the sample `s / 32768.0` of the
audio buffer.  Every such value is a dyadic rational with numerator of at
most 16 bits, hence exactly representable in the `Float32Array` channel
data; the arithmetic is therefore modelled exactly over `ℚ`. -/
def decodeAudioData (bytes : List Nat) : List ℚ :=
  (toInt16Samples bytes).map fun (s : Int) => (s : ℚ) / 32768

/-- A concrete `WordDefinition` used by concrete-state theorems. -/
def sampleWordDef : WordDefinition :=
  { word := "gato", phonetic := "gato", partOfSpeech := "noun",
    definition := "a small domestic cat", originalDefinition := "un felino",
    examples := [], synonyms := [], etymology := "from latin cattus",
    vibes := [] }

/-- A concrete app state with a pending query and everything else empty. -/
def baseState : AppState :=
  { view := View.search, query := "gato", wordData := none, gallery := [],
    activeImageIndex := 0, additionalMeanings := none,
    imageFeedbacks := fun _ => none, savedItems := [], storyQuiz := none,
    chatMessages := [], chatInput := "", isChatOpen := false,
    loadingWord := false, loadingImage := false, loadingNewImage := false,
    isChatSending := false }

/-- Concrete saved items for the Collection Store theorems. -/
def itemA : SavedItem :=
  { id := "1", word := "gato", imageUrl := "img-a",
    definition := "a small domestic cat", timestamp := 5 }

/-- A second concrete saved item with a different (word, image) pair. -/
def itemB : SavedItem :=
  { id := "2", word := "perro", imageUrl := "img-b",
    definition := "a dog", timestamp := 9 }

/-- A concrete state showing a loaded word with a two-image gallery whose
first image is the active one (the user clicked the first thumbnail). -/
def galleryTwoState : AppState :=
  { baseState with
    wordData := some sampleWordDef
    gallery := ["img-a", "img-b"]
    activeImageIndex := 0 }

/-- A concrete state with a loaded word and a pending chat input. -/
def chatState : AppState :=
  { baseState with
    wordData := some sampleWordDef
    chatInput := "hola" }

/-- A concrete state with one image that currently has a recorded like. -/
def fbState : AppState :=
  { baseState with
    wordData := some sampleWordDef
    gallery := ["img-a"]
    activeImageIndex := 0
    imageFeedbacks := fun u => if u = "img-a" then some Feedback.like else none }

/-- Relates the boolean duplicate test of `handleSaveItem` to the
propositional statement of the claim. -/
theorem savedPairDup_iff (prev : List SavedItem) (it : SavedItem) :
    savedPairDup prev it = true ↔
      ∃ j ∈ prev, j.word = it.word ∧ j.imageUrl = it.imageUrl := by
  simp [savedPairDup, List.any_eq_true, Bool.and_eq_true, beq_iff_eq]

/-- Claim C2: Collection Store save is idempotent: if the collection
already contains an item whose word and image reference both equal those
being saved, save leaves the collection unchanged; otherwise it inserts
exactly one new item at the front, so the collection stays ordered
most-recent-first and never holds two items with the same (word, image
reference) pair. -/
theorem c2_save_idempotent (prev : List SavedItem) (it : SavedItem) :
    ((∃ j ∈ prev, j.word = it.word ∧ j.imageUrl = it.imageUrl) →
        handleSaveItem prev it = prev) ∧
    ((¬ ∃ j ∈ prev, j.word = it.word ∧ j.imageUrl = it.imageUrl) →
        handleSaveItem prev it = it :: prev ∧
        (handleSaveItem prev it).length = prev.length + 1) ∧
    handleSaveItem (handleSaveItem prev it) it = handleSaveItem prev it ∧
    (PairUnique prev → PairUnique (handleSaveItem prev it)) ∧
    ((∀ j ∈ prev, j.timestamp ≤ it.timestamp) →
      List.Pairwise (fun a b => b.timestamp ≤ a.timestamp) prev →
      List.Pairwise (fun a b => b.timestamp ≤ a.timestamp)
        (handleSaveItem prev it)) := by
  have hself : savedPairDup (it :: prev) it = true := by
    simp [savedPairDup, List.any_cons]
  refine ⟨?_, ?_, ?_, ?_, ?_⟩
  · intro h
    unfold handleSaveItem
    rw [if_pos ((savedPairDup_iff prev it).mpr h)]
  · intro h
    have hd : savedPairDup prev it = false := by
      cases hcase : savedPairDup prev it
      · rfl
      · exact absurd ((savedPairDup_iff prev it).mp hcase) h
    unfold handleSaveItem
    rw [hd]
    simp
  · by_cases hdup : savedPairDup prev it = true
    · unfold handleSaveItem
      rw [if_pos hdup, if_pos hdup]
    · have hd : savedPairDup prev it = false := by
        cases hcase : savedPairDup prev it
        · rfl
        · exact absurd hcase hdup
      unfold handleSaveItem
      rw [hd]
      simp only [Bool.false_eq_true, if_false, if_pos hself]
  · intro hp
    by_cases hdup : savedPairDup prev it = true
    · unfold handleSaveItem
      rw [if_pos hdup]
      exact hp
    · have hd : savedPairDup prev it = false := by
        cases hcase : savedPairDup prev it
        · rfl
        · exact absurd hcase hdup
      unfold PairUnique handleSaveItem
      rw [hd]
      simp only [Bool.false_eq_true, if_false]
      refine List.Pairwise.cons ?_ hp
      intro b hb hcontra
      exact hdup ((savedPairDup_iff prev it).mpr
        ⟨b, hb, hcontra.1.symm, hcontra.2.symm⟩)
  · intro hts hsorted
    by_cases hdup : savedPairDup prev it = true
    · unfold handleSaveItem
      rw [if_pos hdup]
      exact hsorted
    · have hd : savedPairDup prev it = false := by
        cases hcase : savedPairDup prev it
        · rfl
        · exact absurd hcase hdup
      unfold handleSaveItem
      rw [hd]
      simp only [Bool.false_eq_true, if_false]
      exact List.Pairwise.cons (fun b hb => hts b hb) hsorted

/-- Witness for C2 at concrete inputs: saving `itemA` over `[itemA]` is a
no-op, and saving it over `[itemB]` prepends it. -/
theorem c2_save_idempotent_witness :
    handleSaveItem [itemA] itemA = [itemA] ∧
    handleSaveItem [itemB] itemA = itemA :: [itemB] := by
  constructor
  · exact (c2_save_idempotent [itemA] itemA).1
      ⟨itemA, by decide, rfl, rfl⟩
  · exact ((c2_save_idempotent [itemB] itemA).2.1 (by decide)).1


/-- Claim C1: for every search submitted with a non-blank query, all Word
Session State (definition, image gallery, active image index, additional
meanings, per-image feedback map, chat transcript) is cleared to
empty/absent synchronously at the start of the search handler, before
either request outcome is consulted, regardless of what that state held
before: `handleSearch` factors through `searchReset`, and the reset state
has every session slot empty. -/
theorem c1_search_clears_session (s : AppState)
    (details : Except Unit WordDefinition) (img : String)
    (h : jsTrim s.query ≠ "") :
    handleSearch s details img = commitSearchResults (searchReset s) details img ∧
    (searchReset s).wordData = none ∧
    (searchReset s).gallery = [] ∧
    (searchReset s).activeImageIndex = 0 ∧
    (searchReset s).additionalMeanings = none ∧
    (∀ u, (searchReset s).imageFeedbacks u = none) ∧
    (searchReset s).chatMessages = [] := by
  refine ⟨?_, rfl, rfl, rfl, rfl, fun u => rfl, rfl⟩
  unfold handleSearch
  rw [if_neg h]

/-- Witness for C1 at a concrete state whose session slots are all
populated before the search. -/
theorem c1_search_clears_session_witness :
    jsTrim (AppState.query { baseState with
        wordData := some sampleWordDef
        gallery := ["img-a"]
        activeImageIndex := 3
        additionalMeanings := some [{ context := "Idiom", definition := "x" }]
        imageFeedbacks := fun _ => some Feedback.like
        chatMessages := [{ id := "1", role := ChatRole.user, text := "hi" }] }) ≠ "" ∧
    (searchReset { baseState with
        wordData := some sampleWordDef
        gallery := ["img-a"]
        activeImageIndex := 3
        additionalMeanings := some [{ context := "Idiom", definition := "x" }]
        imageFeedbacks := fun _ => some Feedback.like
        chatMessages := [{ id := "1", role := ChatRole.user, text := "hi" }] }).gallery = [] ∧
    (searchReset { baseState with
        wordData := some sampleWordDef
        gallery := ["img-a"]
        activeImageIndex := 3
        additionalMeanings := some [{ context := "Idiom", definition := "x" }]
        imageFeedbacks := fun _ => some Feedback.like
        chatMessages := [{ id := "1", role := ChatRole.user, text := "hi" }] }).chatMessages = [] := by
  refine ⟨by decide, ?_, ?_⟩
  · exact (c1_search_clears_session _ (Except.error ()) "" (by decide)).2.2.1
  · exact (c1_search_clears_session _ (Except.error ()) "" (by decide)).2.2.2.2.2.2

/-- Counterexample to Claim C3 as stated: with a two-image gallery whose
active index is 0 (first thumbnail selected), a successful variation
appends the third image but sets the active index to 1, which is not the
index of the new last entry (2). -/
theorem c3_variation_counterexample :
    (handleGenerateNewImage galleryTwoState "img-c").gallery =
      ["img-a", "img-b", "img-c"] ∧
    (handleGenerateNewImage galleryTwoState "img-c").activeImageIndex = 1 ∧
    (handleGenerateNewImage galleryTwoState "img-c").gallery.length - 1 = 2 ∧
    ¬ (handleGenerateNewImage galleryTwoState "img-c").activeImageIndex =
        (handleGenerateNewImage galleryTwoState "img-c").gallery.length - 1 := by
  decide

/-- Claim C3 (amended): for every invocation of the generate-variation
action that succeeds, exactly one entry is appended at the end of the
gallery and the active image index is incremented by one — so it points
at the new last entry whenever it pointed at the previous last entry
before; on failure the gallery and the active index are left untouched.
Starting from one original image with active index 0, two successful
variations leave a gallery of 3 entries with the active index pointing at
the last one. -/
theorem c3_variation_appends (s : AppState) (newImg : String)
    (hw : s.wordData ≠ none) :
    (newImg ≠ "" →
      (handleGenerateNewImage s newImg).gallery = s.gallery ++ [newImg] ∧
      (handleGenerateNewImage s newImg).activeImageIndex =
        s.activeImageIndex + 1 ∧
      (s.activeImageIndex + 1 = s.gallery.length →
        (handleGenerateNewImage s newImg).activeImageIndex =
          (handleGenerateNewImage s newImg).gallery.length - 1)) ∧
    (newImg = "" →
      (handleGenerateNewImage s newImg).gallery = s.gallery ∧
      (handleGenerateNewImage s newImg).activeImageIndex =
        s.activeImageIndex) ∧
    (s.gallery.length = 1 → s.activeImageIndex = 0 →
      ∀ i1 i2 : String, i1 ≠ "" → i2 ≠ "" →
        (handleGenerateNewImage (handleGenerateNewImage s i1) i2).gallery.length = 3 ∧
        (handleGenerateNewImage (handleGenerateNewImage s i1) i2).activeImageIndex = 2) := by
  match hs : s.wordData with
  | none => exact absurd hs hw
  | some wd =>
    refine ⟨?_, ?_, ?_⟩
    · intro hne
      refine ⟨by simp [handleGenerateNewImage, hs, hne],
        by simp [handleGenerateNewImage, hs, hne], ?_⟩
      intro hlast
      simp [handleGenerateNewImage, hs, hne, hlast]
    · intro he
      simp [handleGenerateNewImage, hs, he]
    · intro hlen hidx i1 i2 h1 h2
      simp [handleGenerateNewImage, hs, h1, h2, hlen, hidx]

/-- Witness for C3 (amended): two successful variations on a concrete
single-image state give 3 gallery entries with active index 2. -/
theorem c3_variation_appends_witness :
    ({ baseState with
        wordData := some sampleWordDef
        gallery := ["img-a"] } : AppState).wordData ≠ none ∧
    (handleGenerateNewImage (handleGenerateNewImage
        { baseState with
          wordData := some sampleWordDef
          gallery := ["img-a"] } "img-b") "img-c").gallery.length = 3 ∧
    (handleGenerateNewImage (handleGenerateNewImage
        { baseState with
          wordData := some sampleWordDef
          gallery := ["img-a"] } "img-b") "img-c").activeImageIndex = 2 := by
  refine ⟨by decide, ?_⟩
  exact (c3_variation_appends
      { baseState with
        wordData := some sampleWordDef
        gallery := ["img-a"] }
      "img-b" (by decide)).2.2 rfl rfl "img-b" "img-c"
      (by decide) (by decide)

/-- Counterexample to Claim C4 as stated: when the definition fetch fails
but image generation succeeded with `"img-ok"`, the successfully
generated image is never committed — the gallery stays empty. -/
theorem c4_commit_counterexample :
    (handleSearch baseState (Except.error ()) "img-ok").gallery = [] ∧
    ¬ "img-ok" ∈ (handleSearch baseState (Except.error ()) "img-ok").gallery := by
  decide

/-- Claim C4 (amended): within one search the two results are committed
from independent outcomes and each successful commit updates only its own
slice: an image failure (empty reference) never prevents the fetched
definition from being stored, and the committed definition does not
depend on the image outcome; but when the definition fetch fails, the
image result — successful or not — is never committed, and the gallery
stays empty.  Neither commit re-issues a request: `handleSearch` consumes
exactly one definition outcome and one image outcome. -/
theorem c4_commit_independence (s : AppState) (d : WordDefinition)
    (img : String) (hq : jsTrim s.query ≠ "") :
    (handleSearch s (Except.ok d) img).wordData = some d ∧
    (img ≠ "" → (handleSearch s (Except.ok d) img).gallery = [img]) ∧
    (img = "" → (handleSearch s (Except.ok d) img).gallery = []) ∧
    (handleSearch s (Except.error ()) img).wordData = none ∧
    (handleSearch s (Except.error ()) img).gallery = [] := by
  unfold handleSearch
  rw [if_neg hq, if_neg hq]
  unfold commitSearchResults
  by_cases he : img = ""
  · simp [he, searchReset]
  · simp [he, searchReset]

/-- Witness for C4 (amended) at a concrete state: the definition is
stored even when the image reference comes back empty. -/
theorem c4_commit_independence_witness :
    jsTrim baseState.query ≠ "" ∧
    (handleSearch baseState (Except.ok sampleWordDef) "").wordData =
      some sampleWordDef ∧
    (handleSearch baseState (Except.ok sampleWordDef) "").gallery = [] := by
  refine ⟨by decide, ?_, ?_⟩
  · exact (c4_commit_independence baseState sampleWordDef "" (by decide)).1
  · exact (c4_commit_independence baseState sampleWordDef "" (by decide)).2.2.1 rfl

/-- Claim C5: when `generateStoryFromWords` is given more than 8 words,
the word list embedded in the issued request contains exactly 8 elements,
each drawn from the input list, with distinct inputs staying distinct;
with 8 or fewer words all of them are passed.  `shuffled` is the
random-comparator sort result, an arbitrary permutation of the input. -/
theorem c5_story_word_subset (words shuffled : List String)
    (hperm : List.Perm shuffled words) :
    (8 < words.length →
      (generateStoryFromWords words shuffled).1.length = 8 ∧
      (∀ w ∈ (generateStoryFromWords words shuffled).1, w ∈ words) ∧
      (words.Nodup → (generateStoryFromWords words shuffled).1.Nodup)) ∧
    (words.length ≤ 8 →
      (generateStoryFromWords words shuffled).1 = words) := by
  constructor
  · intro h8
    have hs : (generateStoryFromWords words shuffled).1 = shuffled.take 8 := by
      unfold generateStoryFromWords
      rw [if_pos h8]
    refine ⟨?_, ?_, ?_⟩
    · rw [hs, List.length_take]
      have : shuffled.length = words.length := hperm.length_eq
      omega
    · intro w hw
      rw [hs] at hw
      exact hperm.subset (List.take_subset 8 shuffled hw)
    · intro hnd
      rw [hs]
      exact ((List.take_sublist 8 shuffled).nodup (hperm.nodup_iff.mpr hnd))
  · intro hle
    unfold generateStoryFromWords
    rw [if_neg (by omega)]

/-- Witness for C5: with 10 distinct saved words (and the identity
permutation as the sort outcome) the generator receives exactly 8 of
them. -/
theorem c5_story_word_subset_witness :
    8 < (["w1", "w2", "w3", "w4", "w5", "w6", "w7", "w8", "w9", "w10"] :
        List String).length ∧
    (generateStoryFromWords
      ["w1", "w2", "w3", "w4", "w5", "w6", "w7", "w8", "w9", "w10"]
      ["w1", "w2", "w3", "w4", "w5", "w6", "w7", "w8", "w9", "w10"]).1.length = 8 := by
  refine ⟨by decide, ?_⟩
  exact ((c5_story_word_subset
    ["w1", "w2", "w3", "w4", "w5", "w6", "w7", "w8", "w9", "w10"]
    ["w1", "w2", "w3", "w4", "w5", "w6", "w7", "w8", "w9", "w10"]
    (List.Perm.refl _)).1 (by decide)).1

/-- Counterexample to Claim C6 as stated: on a thrown chat call the
`catch` block only logs — no fallback assistant message is appended, so
the transcript ends with the user's message and contains no assistant
message at all. -/
theorem c6_chat_counterexample :
    (handleChatSubmit chatState "u1" "b1" ChatOutcome.threw).chatMessages =
      [{ id := "u1", role := ChatRole.user, text := "hola" }] ∧
    (∀ m ∈ (handleChatSubmit chatState "u1" "b1" ChatOutcome.threw).chatMessages,
      ¬ m.role = ChatRole.model) := by
  decide

/-- Claim C6 (amended): for every chat turn submitted with a non-blank
message while a word is loaded, if the chat call resolves with an
empty or absent response text, the transcript is extended with the
fallback assistant message, so it ends with an assistant message
following the user's; if the call resolves with non-empty text that text
is appended as the assistant message; but if the call throws, no
assistant message is appended — the transcript ends with the user's
message and only the sending lock is cleared. -/
theorem c6_chat_fallback (s : AppState) (uId bId : String)
    (hin : jsTrim s.chatInput ≠ "") (hw : s.wordData ≠ none) :
    (∀ t : Option String, t = none ∨ t = some "" →
      (handleChatSubmit s uId bId (ChatOutcome.ok t)).chatMessages =
        s.chatMessages ++
          [{ id := uId, role := ChatRole.user, text := s.chatInput },
           { id := bId, role := ChatRole.model, text := fallbackChatText }]) ∧
    (∀ u : String, u ≠ "" →
      (handleChatSubmit s uId bId (ChatOutcome.ok (some u))).chatMessages =
        s.chatMessages ++
          [{ id := uId, role := ChatRole.user, text := s.chatInput },
           { id := bId, role := ChatRole.model, text := u }]) ∧
    ((handleChatSubmit s uId bId ChatOutcome.threw).chatMessages =
        s.chatMessages ++
          [{ id := uId, role := ChatRole.user, text := s.chatInput }] ∧
     (handleChatSubmit s uId bId ChatOutcome.threw).isChatSending = false) := by
  match hs : s.wordData with
  | none => exact absurd hs hw
  | some wd =>
    refine ⟨?_, ?_, ?_⟩
    · rintro t (rfl | rfl) <;> simp [handleChatSubmit, hin, hs]
    · intro u hu
      simp [handleChatSubmit, hin, hs, hu]
    · constructor <;> simp [handleChatSubmit, hin, hs]

/-- Witness for C6 (amended) at a concrete state: an empty response text
yields the fallback assistant message after the user's message. -/
theorem c6_chat_fallback_witness :
    jsTrim chatState.chatInput ≠ "" ∧
    (handleChatSubmit chatState "u1" "b1" (ChatOutcome.ok (some ""))).chatMessages =
      chatState.chatMessages ++
        [{ id := "u1", role := ChatRole.user, text := chatState.chatInput },
         { id := "b1", role := ChatRole.model, text := fallbackChatText }] := by
  refine ⟨by decide, ?_⟩
  exact (c6_chat_fallback chatState "u1" "b1" (by decide) (by decide)).1
    (some "") (Or.inr rfl)

/-- Claim C7: per-image feedback is a toggle keyed by the currently
displayed image reference: applying the value already recorded for that
image removes the entry, applying a value when the recorded value differs
or is absent records the applied value, and feedback entries for all
other image references are unchanged; the rest of the state is untouched. -/
theorem c7_feedback_toggle (s : AppState) (ty : Feedback) (url : String)
    (hurl : s.gallery.getD s.activeImageIndex "" = url) (hne : url ≠ "") :
    ((toggleFeedback s ty).imageFeedbacks url =
      if s.imageFeedbacks url = some ty then none else some ty) ∧
    (s.imageFeedbacks url = some ty →
      (toggleFeedback s ty).imageFeedbacks url = none) ∧
    (s.imageFeedbacks url ≠ some ty →
      (toggleFeedback s ty).imageFeedbacks url = some ty) ∧
    (∀ u, u ≠ url → (toggleFeedback s ty).imageFeedbacks u =
      s.imageFeedbacks u) ∧
    (toggleFeedback s ty).gallery = s.gallery ∧
    (toggleFeedback s ty).activeImageIndex = s.activeImageIndex ∧
    (toggleFeedback s ty).wordData = s.wordData ∧
    (toggleFeedback s ty).chatMessages = s.chatMessages := by
  have ht : toggleFeedback s ty =
      { s with imageFeedbacks := fun u =>
          if u = url then
            if s.imageFeedbacks url = some ty then none else some ty
          else s.imageFeedbacks u } := by
    unfold toggleFeedback
    rw [hurl, if_neg hne]
  rw [ht]
  refine ⟨by simp, ?_, ?_, ?_, rfl, rfl, rfl, rfl⟩
  · intro h
    simp [h]
  · intro h
    simp [h]
  · intro u hu
    simp [hu]

/-- Witness for C7 at a concrete state: re-applying the recorded like
clears it, applying dislike overwrites it, and an unrelated image
reference keeps its (absent) entry. -/
theorem c7_feedback_toggle_witness :
    fbState.gallery.getD fbState.activeImageIndex "" = "img-a" ∧
    (toggleFeedback fbState Feedback.like).imageFeedbacks "img-a" = none ∧
    (toggleFeedback fbState Feedback.dislike).imageFeedbacks "img-a" =
      some Feedback.dislike ∧
    (toggleFeedback fbState Feedback.like).imageFeedbacks "img-z" =
      fbState.imageFeedbacks "img-z" := by
  refine ⟨by decide, ?_, ?_, ?_⟩
  · exact (c7_feedback_toggle fbState Feedback.like "img-a" (by decide)
      (by decide)).2.1 (by decide)
  · exact (c7_feedback_toggle fbState Feedback.dislike "img-a" (by decide)
      (by decide)).2.2.1 (by decide)
  · exact (c7_feedback_toggle fbState Feedback.like "img-a" (by decide)
      (by decide)).2.2.2.1 "img-z" (by decide)

/-- Claim C10 (implicit): `generateStoryFromWords` mutates its `words`
argument in place when given more than 8 words — the random-subset
selection sorts the caller's array itself, so afterwards the caller's
array holds the sorted permutation, which can differ from the order it
was passed in; with 8 or fewer words the array is left unchanged.  The
second component of the result is the caller's array after the call. -/
theorem c10_sort_mutates_input (words shuffled : List String)
    (hperm : List.Perm shuffled words) :
    (words.length ≤ 8 → (generateStoryFromWords words shuffled).2 = words) ∧
    (8 < words.length →
      (generateStoryFromWords words shuffled).2 = shuffled ∧
      List.Perm (generateStoryFromWords words shuffled).2 words) ∧
    (∃ ws sh : List String, List.Perm sh ws ∧ 8 < ws.length ∧
      (generateStoryFromWords ws sh).2 ≠ ws) := by
  refine ⟨?_, ?_, ?_⟩
  · intro hle
    unfold generateStoryFromWords
    rw [if_neg (by omega)]
  · intro h8
    have hs : (generateStoryFromWords words shuffled).2 = shuffled := by
      unfold generateStoryFromWords
      rw [if_pos h8]
    exact ⟨hs, by rw [hs]; exact hperm⟩
  · refine ⟨["a", "b", "c", "d", "e", "f", "g", "h", "i"],
      ["b", "a", "c", "d", "e", "f", "g", "h", "i"],
      List.Perm.swap "a" "b" _, by decide, ?_⟩
    unfold generateStoryFromWords
    rw [if_pos (by decide)]
    decide

/-- Witness for C10 at concrete inputs: a 9-word list whose sort swapped
the first two words leaves the caller's array holding the swapped
permutation. -/
theorem c10_sort_mutates_input_witness :
    8 < (["a", "b", "c", "d", "e", "f", "g", "h", "i"] : List String).length ∧
    (generateStoryFromWords
      ["a", "b", "c", "d", "e", "f", "g", "h", "i"]
      ["b", "a", "c", "d", "e", "f", "g", "h", "i"]).2 =
      ["b", "a", "c", "d", "e", "f", "g", "h", "i"] := by
  refine ⟨by decide, ?_⟩
  exact ((c10_sort_mutates_input
    ["a", "b", "c", "d", "e", "f", "g", "h", "i"]
    ["b", "a", "c", "d", "e", "f", "g", "h", "i"]
    (List.Perm.swap "a" "b" _)).2.1 (by decide)).1

/-- A part that passes the renderer's opening-brace test starts with two
opening braces. -/
theorem startsWithOpen_shape (p : List Char) (h : startsWithOpen p = true) :
    ∃ q, p = '{' :: '{' :: q := by
  match p with
  | [] => simp [startsWithOpen] at h
  | [a] => simp [startsWithOpen] at h
  | a :: b :: q =>
    simp only [startsWithOpen, Bool.and_eq_true, decide_eq_true_eq] at h
    exact ⟨q, by rw [h.1, h.2]⟩

/-- A part that passes the renderer's closing-brace test ends with two
closing braces. -/
theorem endsWithClose_shape (p : List Char) (h : endsWithClose p = true) :
    ∃ m, p = m ++ ['}', '}'] := by
  unfold endsWithClose at h
  match hr : p.reverse with
  | [] => rw [hr] at h; simp at h
  | [a] => rw [hr] at h; simp at h
  | a :: b :: t =>
    rw [hr] at h
    simp only [Bool.and_eq_true, decide_eq_true_eq] at h
    have hp : p = p.reverse.reverse := (List.reverse_reverse p).symm
    rw [hr, h.1, h.2] at hp
    exact ⟨t.reverse, by simpa using hp⟩

/-- Classification loses nothing: the source text of the segment a part
is classified into is the part itself (for a blank, the braces are
exactly the ones stripped by `slice(2, -2)`). -/
theorem classifyPart_text (p : List Char) : segText (classifyPart p) = p := by
  unfold classifyPart
  by_cases h : (startsWithOpen p && endsWithClose p) = true
  · rw [if_pos h]
    rw [Bool.and_eq_true] at h
    obtain ⟨hs, he⟩ := h
    obtain ⟨q, rfl⟩ := startsWithOpen_shape p hs
    obtain ⟨m, hm⟩ := endsWithClose_shape _ he
    match m, hm with
    | [], hm => simp at hm
    | [a], hm => simp at hm
    | a :: b :: m2, hm =>
      obtain ⟨ha, hb, hq⟩ : '{' = a ∧ '{' = b ∧ q = m2 ++ ['}', '}'] := by
        simpa using hm
      subst hq
      have hlen : ('{' :: '{' :: (m2 ++ ['}', '}'])).length - 4 = m2.length := by
        simp
      rw [hlen]
      simp [segText, List.take_left]
  · rw [if_neg h]
    rfl

/-- Scanner invariant: concatenating the parts produced by
`storyScanAux` restores the pending literal, the pending marker prefix,
and the unscanned input — so the split loses no characters. -/
theorem storyScanAux_flatten (litAcc : List Char) (mode : Option (List Char))
    (input : List Char) :
    (storyScanAux litAcc mode input).flatten =
      litAcc.reverse ++ modeChars mode ++ input := by
  induction litAcc, mode, input using storyScanAux.induct <;>
    simp_all [storyScanAux, modeChars]

/-- Claim C8: the story renderer splits the body text on `(braces)`
markers such that every marker-delimited token becomes one revealable
blank whose underlying value is the text between the braces, every
non-marker segment is rendered verbatim, and concatenating the rendered
segments in order (each blank contributing its marker text) reproduces
the original body text's order and whitespace exactly; for the body
`"The \x7b\x7bcat\x7d\x7d sat on the \x7b\x7bmat\x7d\x7d."` this yields
exactly two blanks with values `cat` and `mat` and the literal segments
`"The "`, `" sat on the "`, `"."` in order. -/
theorem c8_story_render_roundtrip :
    (∀ content : List Char,
      ((renderStoryContent content).map segText).flatten = content) ∧
    renderStoryContent exampleStoryBody =
      [StorySegment.lit "The ".data, StorySegment.blank "cat".data,
       StorySegment.lit " sat on the ".data, StorySegment.blank "mat".data,
       StorySegment.lit ".".data] := by
  constructor
  · intro content
    have h1 : (renderStoryContent content).map segText = storySplit content := by
      unfold renderStoryContent
      rw [List.map_map]
      have h2 : segText ∘ classifyPart = id := funext classifyPart_text
      rw [h2, List.map_id]
    rw [h1]
    have h3 := storyScanAux_flatten [] none content
    simpa [modeChars] using h3
  · decide

/-- The `Int16Array` view has one sample per byte pair. -/
theorem toInt16Samples_length : ∀ bytes : List Nat,
    (toInt16Samples bytes).length = bytes.length / 2
  | [] => by decide
  | [_] => by
      show (toInt16Samples []).length = 1 / 2
      decide
  | b0 :: b1 :: rest => by
      simp only [toInt16Samples, List.length_cons,
        toInt16Samples_length rest]
      omega

/-- Every decoded 16-bit sample lies in the signed 16-bit range. -/
theorem toInt16Samples_bounds : ∀ bytes : List Nat,
    (∀ b ∈ bytes, b < 256) →
    ∀ s ∈ toInt16Samples bytes, -32768 ≤ s ∧ s ≤ 32767
  | [], _, s, hs => by simp [toInt16Samples] at hs
  | [b], _, s, hs => by simp [toInt16Samples] at hs
  | b0 :: b1 :: rest, hb, s, hs => by
      simp only [toInt16Samples, List.mem_cons] at hs
      rcases hs with rfl | hs
      · have h0 : b0 < 256 := hb b0 (by simp)
        have h1 : b1 < 256 := hb b1 (by simp)
        simp only [byteToInt16]
        split <;> omega
      · exact toInt16Samples_bounds rest
          (fun b hbm => hb b (by simp [hbm])) s hs

/-- Claim C9: the speech-synthesis audio decoder, given a byte payload
interpreted as mono 16-bit signed PCM samples, produces samples that each
lie in the closed interval [-1, 1]: every 16-bit sample value `s` in
[-32768, 32767] is mapped to `s / 32768`, and the number of output frames
equals the number of 16-bit input samples.  Each output value is a dyadic
rational exactly representable in the 32-bit floats of the audio buffer,
so the arithmetic is modelled exactly over `ℚ`. -/
theorem c9_audio_samples_normalized (bytes : List Nat)
    (hb : ∀ b ∈ bytes, b < 256) (heven : bytes.length % 2 = 0) :
    (decodeAudioData bytes).length = bytes.length / 2 ∧
    (toInt16Samples bytes).length = bytes.length / 2 ∧
    decodeAudioData bytes =
      (toInt16Samples bytes).map (fun (s : Int) => (s : ℚ) / 32768) ∧
    (∀ s ∈ toInt16Samples bytes, -32768 ≤ s ∧ s ≤ 32767) ∧
    (∀ q ∈ decodeAudioData bytes, -1 ≤ q ∧ q ≤ 1) := by
  refine ⟨?_, toInt16Samples_length bytes, rfl,
    toInt16Samples_bounds bytes hb, ?_⟩
  · have h1 : (decodeAudioData bytes).length = (toInt16Samples bytes).length := by
      simp [decodeAudioData]
    rw [h1]
    exact toInt16Samples_length bytes
  · intro q hq
    have hq2 : ∃ s ∈ toInt16Samples bytes, (s : ℚ) / 32768 = q := by
      simpa [decodeAudioData] using hq
    obtain ⟨s, hsmem, rfl⟩ := hq2
    obtain ⟨hlo, hhi⟩ := toInt16Samples_bounds bytes hb s hsmem
    constructor
    · rw [le_div_iff₀ (by norm_num : (0:ℚ) < 32768)]
      have hc : (-32768 : ℚ) ≤ (s : ℚ) := by exact_mod_cast hlo
      linarith
    · rw [div_le_one (by norm_num : (0:ℚ) < 32768)]
      have hc : (s : ℚ) ≤ 32767 := by exact_mod_cast hhi
      linarith

/-- Witness for C9 at a concrete payload: the bytes [0, 128, 255, 127]
decode to the two samples -32768 and 32767, i.e. the values -1 and
32767/32768, both inside [-1, 1]. -/
theorem c9_audio_samples_normalized_witness :
    (∀ b ∈ ([0, 128, 255, 127] : List Nat), b < 256) ∧
    ([0, 128, 255, 127] : List Nat).length % 2 = 0 ∧
    (decodeAudioData [0, 128, 255, 127]).length = 2 ∧
    decodeAudioData [0, 128, 255, 127] = [-1, 32767 / 32768] := by
  refine ⟨by decide, by decide, ?_, ?_⟩
  · exact ((c9_audio_samples_normalized [0, 128, 255, 127]
      (by decide) (by decide)).1).trans (by decide)
  · norm_num [decodeAudioData, toInt16Samples, byteToInt16]
